import Mathlib

/-!
Verification of the graph-construction and issue-detection engine of the
swiftui-cause-effect CLI (Go).  Each Go function used by a claim is shallowly
embedded as an executable Lean definition:

* Go `int` is modelled as `Int` (no 64-bit overflow is reachable in the
  embedded arithmetic; where the source masks with `& 0x7fffffff` the model
  takes `% 2^31` explicitly).
* Go `float64` confidence literals (0.3 up to 0.95) are modelled as `ℚ`, written
  `mkRat n d` so the kernel can evaluate them; all the
  source does with them is compare and copy, and on these short decimal
  literals the rational order agrees with the float order.
* Go `map[string]*Node` is modelled as an association list in key-insertion
  order.  Go map iteration order is unspecified; theorems below either
  quantify over a node of the graph or evaluate graphs with too few nodes per
  detector for the order to matter.
* Go strings are modelled as Lean `String`/`List Char` (runes); the source is
  only exercised on ASCII in every concrete evaluation below, where Go and
  Lean lower-casing agree.
-/

/-! ## Graph store (internal/graph, src/unnamed/part_002) -/

/-- `NodeType` with its four constants `cause`, `state`, `view`, `other`. -/
inductive NodeType where
  | cause
  | state
  | view
  | other
deriving DecidableEq, Repr

/-- `graph.Node`: `ID`, `Label`, `Type`, `Count`. -/
structure Node where
  id : String
  label : String
  type : NodeType
  count : Int
deriving DecidableEq, Repr

/-- `graph.Edge`: `From`, `To`, `Label` (fields renamed `src`/`dst` because
`from` is a Lean keyword). -/
structure Edge where
  src : String
  dst : String
  label : String
deriving DecidableEq, Repr

/-- `graph.Graph`: node map (association list in insertion order) plus the
append-only edge list. -/
structure Graph where
  nodes : List (String × Node)
  edges : List Edge
deriving DecidableEq, Repr

/-- `graph.New()`. -/
def Graph.new : Graph := { nodes := [], edges := [] }

/-- Association-list lookup standing in for Go map indexing `g.Nodes[id]`. -/
def lookupNode : List (String × Node) → String → Option Node
  | [], _ => none
  | (k, n) :: rest, i => if k = i then some n else lookupNode rest i

/-- The merge performed by `UpsertNode` on an existing entry: keep a
non-empty existing label, replace an existing `Other` kind, keep the larger
count. -/
def mergeNode (existing incoming : Node) : Node :=
  { existing with
      label := if existing.label = "" then incoming.label else existing.label
      type := if existing.type = NodeType.other then incoming.type else existing.type
      count := if incoming.count > existing.count then incoming.count else existing.count }

/-- Entry update for the merge branch of `UpsertNode`. -/
def updateEntry (l : List (String × Node)) (i : String) (n : Node) : List (String × Node) :=
  l.map fun p => if p.1 = i then (p.1, mergeNode p.2 n) else p

/-- `(*Graph).UpsertNode`. -/
def upsertNode (g : Graph) (n : Node) : Graph :=
  match lookupNode g.nodes n.id with
  | some _ => { g with nodes := updateEntry g.nodes n.id n }
  | none => { g with nodes := g.nodes ++ [(n.id, n)] }

/-- `(*Graph).AddEdge`: append-only, no validation. -/
def addEdge (g : Graph) (e : Edge) : Graph :=
  { g with edges := g.edges ++ [e] }

/-- A sequence of upserts, in arrival order. -/
def upsertList (g : Graph) (recs : List Node) : Graph :=
  recs.foldl upsertNode g

/-- First non-empty string of a list (the fold `UpsertNode` performs on
labels), seeded by the stored label. -/
def firstNonEmptyFrom (seed : String) (l : List String) : String :=
  l.foldl (fun a b => if a = "" then b else a) seed

/-- First non-`other` kind of a list (the fold `UpsertNode` performs on
kinds), seeded by the stored kind. -/
def firstSpecificFrom (seed : NodeType) (l : List NodeType) : NodeType :=
  l.foldl (fun a b => if a = NodeType.other then b else a) seed

/-- Maximum count (the fold `UpsertNode` performs on counts). -/
def maxCountFrom (seed : Int) (l : List Int) : Int :=
  l.foldl (fun a b => if b > a then b else a) seed

/-! ## Regex heuristics of the analyze package (src/unnamed/part_004)

The three package-level regexes `reState`, `reView`, `reCause` are only used
through `MatchString`, i.e. as existence of a matching substring.  They are
embedded as executable matchers over `List Char`.  All of them carry the
`(?i)` flag and are applied below to already lower-cased text, so the
matchers take lower-case needles.  RE2 character classes: `\w` is
`[0-9A-Za-z_]`, `\s` is `[\t\n\f\r ]`, and `\b` is a word/non-word boundary.
-/

/-- RE2 `\w`. -/
def isWordChar (c : Char) : Bool := c.isAlpha || c.isDigit || c = '_'

/-- RE2 `\s`. -/
def isSpaceRE (c : Char) : Bool :=
  c = '\t' || c = '\n' || c = '\x0c' || c = '\r' || c = ' '

/-- `strings.Contains hay needle`. -/
def containsSub (hay needle : List Char) : Bool :=
  hay.tails.any fun t => needle.isPrefixOf t

/-- Boundary before a match: start of text or a non-word character. -/
def boundaryOk : Option Char → Bool
  | none => true
  | some p => !(isWordChar p)

/-- Boundary after a match: end of text or a non-word character. -/
def tailBoundary : List Char → Bool
  | [] => true
  | c :: _ => !(isWordChar c)

/-- Occurrence of `needle` preceded by a `\b` boundary (no trailing-boundary
requirement), scanning with the previous character. -/
def boundaryPrefixAux (needle : List Char) (prev : Option Char) : List Char → Bool
  | [] => false
  | c :: rest =>
    (boundaryOk prev && needle.isPrefixOf (c :: rest))
      || boundaryPrefixAux needle (some c) rest

/-- Occurrence of `\bneedle` (leading boundary only), e.g. `\bbody\(\)`. -/
def boundaryPrefixMatch (needle hay : List Char) : Bool :=
  boundaryPrefixAux needle none hay

/-- Occurrence of `\bneedle\b` (both boundaries), scanning with the previous
character. -/
def wordMatchAux (needle : List Char) (prev : Option Char) : List Char → Bool
  | [] => false
  | c :: rest =>
    (boundaryOk prev && needle.isPrefixOf (c :: rest)
        && tailBoundary ((c :: rest).drop needle.length))
      || wordMatchAux needle (some c) rest

/-- `\bneedle\b` somewhere in `hay`. -/
def wordMatch (needle hay : List Char) : Bool :=
  wordMatchAux needle none hay

/-- `w₁\s+w₂\s+…\s+wₙ` matching at the head of `l`.  Each following word
starts with a non-space character, so the greedy `\s+` must consume exactly
the maximal space run. -/
def wsSeqFrom : List (List Char) → List Char → Bool
  | [], _ => true
  | [w], l => w.isPrefixOf l
  | w :: ws, l =>
    w.isPrefixOf l &&
      match l.drop w.length with
      | [] => false
      | c :: rest => isSpaceRE c && wsSeqFrom ws (rest.dropWhile isSpaceRE)

/-- `w₁\s+…\s+wₙ` somewhere in `hay`. -/
def wsSeqMatch (ws : List (List Char)) (hay : List Char) : Bool :=
  hay.tails.any fun t => wsSeqFrom ws t

/-- `reState = (?i)(state\s+change|\bstate\b|@state|@observedobject|@stateobject|\benvironment\b)`
on lower-cased text. -/
def reStateMatch (l : List Char) : Bool :=
  wsSeqMatch ["state".toList, "change".toList] l
    || wordMatch "state".toList l
    || containsSub l "@state".toList
    || containsSub l "@observedobject".toList
    || containsSub l "@stateobject".toList
    || wordMatch "environment".toList l

/-- `reView = (?i)(view\s+body\s+update|view\s+update|\bbody\(\)|\bView\b)`
on lower-cased text. -/
def reViewMatch (l : List Char) : Bool :=
  wsSeqMatch ["view".toList, "body".toList, "update".toList] l
    || wsSeqMatch ["view".toList, "update".toList] l
    || boundaryPrefixMatch "body()".toList l
    || wordMatch "view".toList l

/-- `reCause = (?i)(gesture|tap|button|timer|notification|publisher|async|network|animation|scene)`
on lower-cased text. -/
def reCauseMatch (l : List Char) : Bool :=
  [ "gesture", "tap", "button", "timer", "notification", "publisher", "async",
    "network", "animation", "scene"
  ].any fun w => containsSub l w.toList

/-- ASCII lower-casing of one character (`strings.ToLower` is Unicode; only
ASCII is exercised in every input below, where the two agree). -/
def lowerChar (c : Char) : Char :=
  if c.toNat ≥ 65 ∧ c.toNat ≤ 90 then Char.ofNat (c.toNat + 32) else c

/-- `strings.ToLower` (ASCII model). -/
def lowerStr (s : String) : String := ⟨s.data.map lowerChar⟩

/-- Lower-cased character list of a string. -/
def lcChars (s : String) : List Char := s.data.map lowerChar

/-- `analyze.classify(kind, label)`: the exact cascade of the source —
each branch tests the kind substring OR the label regex. -/
def classify (kind label : String) : NodeType :=
  if containsSub (lcChars kind) "state".toList || reStateMatch (lcChars label) then
    NodeType.state
  else if containsSub (lcChars kind) "view".toList || reViewMatch (lcChars label) then
    NodeType.view
  else if containsSub (lcChars kind) "cause".toList || reCauseMatch (lcChars label) then
    NodeType.cause
  else NodeType.other

/-- The 31-bit rolling label hash of `analyze.idOrHash`: Go masks with
`& 0x7fffffff` each step, i.e. reduces mod `2^31`. -/
def labelHash (label : String) : Nat :=
  label.data.foldl (fun h c => (h * 31 + c.toNat) % 2 ^ 31) 0

/-- `analyze.idOrHash(id, label)`. -/
def idOrHash (id label : String) : String :=
  if id ≠ "" then id else "n" ++ toString (labelHash label)

/-- `analyze.trim(s, max)`.  Go measures bytes; the model measures
characters, which agree on the ASCII inputs exercised below. -/
def trimLabel (s : String) (mx : Nat) : String :=
  if s.length ≤ mx then s else (s.take (mx - 1)).push '…'

/-! ## Ingestion (analyze package, src/unnamed/part_004)

`ParseTrace` walks a directory and dispatches each file by extension.  The
model takes the walk as already completed without an I/O error (the claim's
hypothesis): a `TraceFile` carries the file's base name, its lower-cased
extension, its text content as lines, the result of `json.Unmarshal` into
`map[string]any` (`Except` error for malformed JSON or a non-object), and an
optional read error for `os.ReadFile`/`os.Open` failures.  JSON values are an
inductive; numbers are modelled as `Int` (Go converts `float64` to `int` on
extraction; non-integral values play no role in any claim).
-/

/-- JSON value, as decoded by `encoding/json` into `any`. -/
inductive JVal where
  | null
  | bool (b : Bool)
  | num (n : Int)
  | str (s : String)
  | arr (elems : List JVal)
  | obj (fields : List (String × JVal))

/-- Go map lookup `m[key]` over the decoded object. -/
def jLookup : List (String × JVal) → String → Option JVal
  | [], _ => none
  | (k, v) :: rest, key => if k = key then some v else jLookup rest key

/-- `analyze.asString(v, def)`. -/
def asString (v : Option JVal) (dflt : String) : String :=
  match v with
  | some (JVal.str s) => s
  | _ => dflt

/-- `analyze.asInt(v, def)`. -/
def asInt (v : Option JVal) (dflt : Int) : Int :=
  match v with
  | some (JVal.num n) => n
  | _ => dflt

/-- One input file as seen after the directory walk. -/
structure TraceFile where
  name : String
  ext : String
  lines : List String
  decoded : Except String (List (String × JVal))
  readErr : Option String

/-- `summaryStats`. -/
structure SummaryStats where
  filesParsed : Int
  hints : List String
deriving DecidableEq, Repr

/-- State of `parseTextReader`: the pending cause and state node ids
(`""` plays Go's zero-value role of "none"). -/
structure TextState where
  lastCause : String
  lastState : String

/-- One line of `analyze.parseTextReader`: trim, skip blanks, then the
state → view → cause first-match-wins switch. -/
def parseTextLine (acc : Graph × TextState) (raw : String) : Graph × TextState :=
  let line := raw.trim
  if line = "" then acc
  else if reStateMatch (lcChars line) then
    let i := idOrHash "" line
    let g := upsertNode acc.1 { id := i, label := trimLabel line 120, type := NodeType.state, count := 0 }
    let g := if acc.2.lastCause ≠ "" then
        addEdge g { src := acc.2.lastCause, dst := i, label := "causes" } else g
    (g, { acc.2 with lastState := i })
  else if reViewMatch (lcChars line) then
    let vid := idOrHash "" line
    let g := upsertNode acc.1 { id := vid, label := trimLabel line 120, type := NodeType.view, count := 0 }
    let g := if acc.2.lastState ≠ "" then
        addEdge g { src := acc.2.lastState, dst := vid, label := "updates" } else g
    (g, acc.2)
  else if reCauseMatch (lcChars line) then
    let cid := idOrHash "" line
    let g := upsertNode acc.1 { id := cid, label := trimLabel line 120, type := NodeType.cause, count := 0 }
    (g, { acc.2 with lastCause := cid })
  else acc

/-- `analyze.parseTextReader` over the lines of one file. -/
def parseTextReaderLines (lines : List String) (g : Graph) : Graph :=
  (lines.foldl parseTextLine (g, { lastCause := "", lastState := "" })).1

/-- One node record of strategy 1 of `analyze.parseJSON` (non-object array
elements are skipped by the `continue`). -/
def parseJSONNode (g : Graph) (v : JVal) : Graph :=
  match v with
  | JVal.obj m =>
    let id := asString (jLookup m "id") (asString (jLookup m "uuid") "")
    let label := asString (jLookup m "label") (asString (jLookup m "title") "")
    let kind := lowerStr (asString (jLookup m "type") (asString (jLookup m "kind") ""))
    let count := asInt (jLookup m "count") (asInt (jLookup m "updates") 0)
    upsertNode g { id := idOrHash id label, label := label, type := classify kind label, count := count }
  | _ => g

/-- One edge record of strategy 1 of `analyze.parseJSON` (skips non-objects
and records with an empty endpoint). -/
def parseJSONEdge (g : Graph) (v : JVal) : Graph :=
  match v with
  | JVal.obj m =>
    let esrc := asString (jLookup m "from") (asString (jLookup m "source") "")
    let edst := asString (jLookup m "to") (asString (jLookup m "target") "")
    let label := asString (jLookup m "label") (asString (jLookup m "reason") "")
    if esrc = "" ∨ edst = "" then g
    else addEdge g { src := esrc, dst := edst, label := label }
  | _ => g

/-- `analyze.parseJSON`: read failure or unmarshal failure is an error;
otherwise strategy 1 when both `nodes` and `edges` are arrays, else the
free-text fallback over the raw bytes. -/
def parseJSONFile (f : TraceFile) (g : Graph) : Except String Graph :=
  match f.readErr with
  | some e => Except.error e
  | none =>
    match f.decoded with
    | Except.error e => Except.error e
    | Except.ok m =>
      match jLookup m "nodes", jLookup m "edges" with
      | some (JVal.arr nodesRaw), some (JVal.arr edgesRaw) =>
        let g := nodesRaw.foldl parseJSONNode g
        let g := edgesRaw.foldl parseJSONEdge g
        Except.ok g
      | _, _ => Except.ok (parseTextReaderLines f.lines g)

/-- `analyze.parseTextLike`: open failure is an error, otherwise the
free-text scanner (whose own scan error cannot arise in the line model). -/
def parseTextLikeFile (f : TraceFile) (g : Graph) : Except String Graph :=
  match f.readErr with
  | some e => Except.error e
  | none => Except.ok (parseTextReaderLines f.lines g)

/-- The per-file dispatch of `analyze.parseDirectory`: `.json` goes to the
JSON parser, `.xml`/`.csv`/`.txt` to the text parser (a failure appends one
hint and never aborts), anything else is skipped entirely. -/
def parseDirFile (acc : Graph × SummaryStats) (f : TraceFile) : Graph × SummaryStats :=
  let (g, stats) := acc
  if f.ext = ".json" then
    match parseJSONFile f g with
    | Except.ok g2 => (g2, { stats with filesParsed := stats.filesParsed + 1 })
    | Except.error e =>
      (g, { filesParsed := stats.filesParsed + 1,
            hints := stats.hints ++ ["JSON parse skipped " ++ f.name ++ ": " ++ e] })
  else if f.ext = ".xml" ∨ f.ext = ".csv" ∨ f.ext = ".txt" then
    match parseTextLikeFile f g with
    | Except.ok g2 => (g2, { stats with filesParsed := stats.filesParsed + 1 })
    | Except.error e =>
      (g, { filesParsed := stats.filesParsed + 1,
            hints := stats.hints ++ ["text parse skipped " ++ f.name ++ ": " ++ e] })
  else acc

/-- `analyze.parseDirectory` over a completed, error-free walk. -/
def parseDirectory (files : List TraceFile) : Graph × SummaryStats :=
  files.foldl parseDirFile (Graph.new, { filesParsed := 0, hints := [] })

/-- `analyze.ErrNoData`. -/
def errNoData : String := "no parseable cause-and-effect data"

/-- `analyze.AnalysisResult`. -/
structure AnalysisResult where
  graph : Graph
  filesParsed : Int
  hints : List String

/-- `analyze.ParseTrace` from the point where the directory walk has
completed without an I/O error: the no-data check on the built graph. -/
def parseTrace (files : List TraceFile) : Except String AnalysisResult :=
  let (g, stats) := parseDirectory files
  if g.nodes.length = 0 ∨ g.edges.length = 0 then Except.error errNoData
  else Except.ok { graph := g, filesParsed := stats.filesParsed, hints := stats.hints }

/-! ## Issue detection (internal/issues/issues.go)

Issue ids (`issue-1`, `issue-2`, …) are produced by a closure counter
incremented once per created issue, in detector order; the model creates the
issues id-less in the same order and numbers the concatenation afterwards,
which yields identical issues.  `Detect`'s final `sort.Slice` is an
unstable sort descending by severity rank; it is modelled as a stable merge
sort, and no theorem below depends on the order of equal-severity issues.
-/

/-- `issues.Severity` (only the five declared constants are ever created). -/
inductive Severity where
  | critical
  | high
  | medium
  | low
  | info
deriving DecidableEq, Repr

/-- `issues.IssueType`. -/
inductive IssueType where
  | excessiveRerender
  | cascadingUpdate
  | frequentTrigger
  | deepDependencyChain
  | wholeObjectPassing
  | timerCascade
  | stateInBody
  | unnecessaryBinding
deriving DecidableEq, Repr

/-- `issues.Issue` (`SourceFile`/`LineNumber` are populated later and stay at
their zero values during detection). -/
structure Issue where
  id : String
  type : IssueType
  severity : Severity
  title : String
  description : String
  impact : String
  affectedNodes : List String
  causeChain : List String
  updateCount : Int
  cascadeDepth : Int
  performanceHint : String
  confidence : ℚ
deriving DecidableEq, Repr

/-- `issues.Thresholds`. -/
structure Thresholds where
  excessiveRerenderCount : Int
  cascadeDepthLimit : Int
  frequentTriggerCount : Int
  highConfidence : ℚ

/-- `issues.DefaultThresholds()`. -/
def defaultThresholds : Thresholds :=
  { excessiveRerenderCount := 10, cascadeDepthLimit := 4,
    frequentTriggerCount := 15, highConfidence := (mkRat 7 10) }

/-- `issues.severityRank`. -/
def severityRank : Severity → Int
  | Severity.critical => 5
  | Severity.high => 4
  | Severity.medium => 3
  | Severity.low => 2
  | Severity.info => 1

/-- The loop body of `detectExcessiveRerenders` for one node: one issue per
View node with `Count ≥ ExcessiveRerenderCount`; severity by the strict `>`
comparisons of the source. -/
def rerenderIssueFor (t : Thresholds) (node : Node) : Option Issue :=
  if node.type = NodeType.view ∧ t.excessiveRerenderCount ≤ node.count then
      some
        { id := ""
          type := IssueType.excessiveRerender
          severity :=
            if node.count > t.excessiveRerenderCount * 3 then Severity.critical
            else if node.count > t.excessiveRerenderCount * 2 then Severity.high
            else Severity.medium
          title := "Excessive re-renders in " ++ node.label
          description := "View '" ++ node.label ++ "' updated " ++ toString node.count ++
            " times during the trace. This suggests the view's dependencies are changing more frequently than necessary."
          impact := "High CPU usage, potential frame drops, battery drain"
          affectedNodes := [node.id]
          causeChain := []
          updateCount := node.count
          cascadeDepth := 0
          performanceHint := "Consider using EquatableView, extracting subviews, or checking if @ObservedObject can be replaced with more granular @State"
          confidence := (mkRat 85 100) }
  else none

/-- `detectExcessiveRerenders`: the loop over the node map. -/
def detectExcessiveRerenders (t : Thresholds) (g : Graph) : List Issue :=
  g.nodes.filterMap fun p => rerenderIssueFor t p.2

/-- The label list of a state node's outgoing edges whose target is a View
node (the `affectedViews` accumulation of `detectCascadingUpdates`; one
entry per edge, duplicates included). -/
def affectedViewLabels (g : Graph) (nid : String) : List String :=
  g.edges.filterMap fun e =>
    if e.src = nid then
      match lookupNode g.nodes e.dst with
      | some target => if target.type = NodeType.view then some target.label else none
      | none => none
    else none

/-- The loop body of `detectCascadingUpdates` for one node: per State node,
count view-targeted outgoing edges; at ≥ 3 emit one issue whose
`AffectedNodes` is the state node id followed by the affected view labels. -/
def cascadeIssueFor (g : Graph) (node : Node) : Option Issue :=
  if node.type = NodeType.state then
      let views := affectedViewLabels g node.id
      let viewsAffected : Int := views.length
      if viewsAffected ≥ 3 then
        some
          { id := ""
            type := IssueType.cascadingUpdate
            severity := if viewsAffected ≥ 6 then Severity.high else Severity.medium
            title := "State change cascades to " ++ toString viewsAffected ++ " views"
            description := "State '" ++ node.label ++ "' triggers updates in " ++
              toString viewsAffected ++ " different views: " ++ String.intercalate ", " views ++
              ". Consider whether all views need to observe this entire state."
            impact := "Multiple views re-rendering simultaneously causes frame drops"
            affectedNodes := node.id :: views
            causeChain := []
            updateCount := 0
            cascadeDepth := viewsAffected
            performanceHint := "Split state into smaller pieces, use derived state, or pass only required properties to child views"
            confidence := (mkRat 75 100) }
      else none
  else none

/-- `detectCascadingUpdates`: the loop over the node map. -/
def detectCascadingUpdates (g : Graph) : List Issue :=
  g.nodes.filterMap fun p => cascadeIssueFor g p.2

/-- `detectFrequentTriggers`. -/
def detectFrequentTriggers (t : Thresholds) (g : Graph) : List Issue :=
  g.nodes.filterMap fun p =>
    let node := p.2
    if node.type = NodeType.cause ∧ t.frequentTriggerCount ≤ node.count then
      some
        { id := ""
          type := IssueType.frequentTrigger
          severity :=
            if node.count > t.frequentTriggerCount * 3 then Severity.high
            else Severity.medium
          title := "Frequent trigger: " ++ node.label ++ " (" ++ toString node.count ++ " times)"
          description := "Cause '" ++ node.label ++ "' fired " ++ toString node.count ++
            " times. If this triggers state updates, it may cause excessive view re-renders."
          impact := "Potential performance bottleneck if each trigger causes view updates"
          affectedNodes := [node.id]
          causeChain := []
          updateCount := node.count
          cascadeDepth := 0
          performanceHint := "Consider debouncing, throttling, or batching updates from this trigger"
          confidence := (mkRat 7 10) }
    else none

/-- The edge loop inside `findLongestChain`: accumulate the longest chain,
taking the recursive result for every outgoing edge.  `rec` is the recursive
call with the current node marked visited; a `none` from `rec` means the
fuel bound did not cover the needed recursion depth and is propagated. -/
def chainFold (rec : String → Option (List String)) (nodeID : String) :
    List Edge → List String → Option (List String)
  | [], longest => some longest
  | e :: rest, longest =>
    if e.src = nodeID then
      match rec e.dst with
      | none => none
      | some sub =>
        chainFold rec nodeID rest
          (if sub.length + 1 > longest.length then nodeID :: sub else longest)
    else chainFold rec nodeID rest longest

/-- `findLongestChain` with an explicit recursion-depth budget `fuel`: each
nested call consumes one unit, so `findLongestChainF g fuel n v ≠ none`
states that the Go recursion from `n` with visited set `v` reaches depth at
most `fuel`. -/
def findLongestChainF (g : Graph) : Nat → String → List String → Option (List String)
  | 0, _, _ => none
  | fuel + 1, nodeID, visited =>
    if nodeID ∈ visited then some []
    else chainFold (fun tgt => findLongestChainF g fuel tgt (nodeID :: visited)) nodeID
      g.edges [nodeID]

/-- Every node identifier occurring in a graph: keys of the node map and
both endpoints of every edge (a dangling edge endpoint is visited by the
search exactly like a stored node). -/
def idList (g : Graph) : List String :=
  g.nodes.map Prod.fst ++ g.edges.map Edge.src ++ g.edges.map Edge.dst

/-- A sufficient recursion-depth budget for `findLongestChainF`. -/
def chainFuel (g : Graph) : Nat := (idList g).length + 1

/-- `findLongestChain` itself: the fuel bound `chainFuel` is sufficient on
every graph (proved below), so this equals the Go recursion. -/
def findLongestChain (g : Graph) (nodeID : String) (visited : List String) : List String :=
  (findLongestChainF g (chainFuel g) nodeID visited).getD []

/-- `detectDeepChains`. -/
def detectDeepChains (t : Thresholds) (g : Graph) : List Issue :=
  g.nodes.filterMap fun p =>
    let node := p.2
    if node.type = NodeType.cause then
      let chain := findLongestChain g node.id []
      let len : Int := chain.length
      if len > t.cascadeDepthLimit then
        let chainLabels := chain.map fun i =>
          match lookupNode g.nodes i with
          | some n => n.label
          | none => i
        some
          { id := ""
            type := IssueType.deepDependencyChain
            severity :=
              if len > t.cascadeDepthLimit * 2 then Severity.high else Severity.medium
            title := "Deep dependency chain (" ++ toString len ++ " levels)"
            description := "Update chain has " ++ toString len ++ " levels: " ++
              String.intercalate " → " chainLabels ++
              ". Deep chains increase latency and make debugging harder."
            impact := "Increased latency, harder to trace bugs, potential for unnecessary updates"
            affectedNodes := chain
            causeChain := chainLabels
            updateCount := 0
            cascadeDepth := len
            performanceHint := "Consider flattening the dependency tree or using derived state to reduce chain depth"
            confidence := (mkRat 8 10) }
      else none
    else none

/-- The DFS of `findReachableViews` with a global visited set, fuel-bounded
like the chain search (the visited set only grows, so `chainFuel` depth
always suffices; exhausted fuel leaves the state unchanged). -/
def reachAux (g : Graph) : Nat → String → List String × List String → List String × List String
  | 0, _, st => st
  | fuel + 1, nid, (visited, views) =>
    if nid ∈ visited then (visited, views)
    else
      let visited2 := nid :: visited
      let views2 :=
        match lookupNode g.nodes nid with
        | some n => if n.type = NodeType.view then views ++ [nid] else views
        | none => views
      g.edges.foldl
        (fun st e => if e.src = nid then reachAux g fuel e.dst st else st)
        (visited2, views2)

/-- `findReachableViews`. -/
def findReachableViews (g : Graph) (startID : String) : List String :=
  (reachAux g (chainFuel g) startID ([], [])).2

/-- `detectTimerCascades`. -/
def detectTimerCascades (g : Graph) : List Issue :=
  g.nodes.filterMap fun p =>
    let node := p.2
    if node.type = NodeType.cause ∧
        (containsSub (lcChars node.label) "timer".toList ∨
          containsSub (lcChars node.label) "interval".toList) then
      let affected := findReachableViews g node.id
      if affected.length ≥ 2 then
        some
          { id := ""
            type := IssueType.timerCascade
            severity := Severity.high
            title := "Timer triggers " ++ toString affected.length ++ " view updates"
            description := "Timer '" ++ node.label ++ "' causes updates to " ++
              toString affected.length ++
              " views. Timers that trigger broad UI updates can cause consistent frame drops."
            impact := "Consistent frame drops at timer interval, battery drain"
            affectedNodes := node.id :: affected
            causeChain := [node.label]
            updateCount := 0
            cascadeDepth := 0
            performanceHint := "Use TimelineView for animations, limit timer scope, or update only changed data"
            confidence := (mkRat 9 10) }
      else none
    else none

/-- `countAffectedViews`. -/
def countAffectedViews (g : Graph) (nid : String) : Int :=
  g.edges.foldl
    (fun c e =>
      if e.src = nid then
        match lookupNode g.nodes e.dst with
        | some target => if target.type = NodeType.view then c + 1 else c
        | none => c
      else c)
    0

/-- `detectWholeObjectPassing`. -/
def detectWholeObjectPassing (g : Graph) : List Issue :=
  g.nodes.filterMap fun p =>
    let node := p.2
    let lbl := lcChars node.label
    if node.type = NodeType.state ∧
        (containsSub lbl "model".toList ∨ containsSub lbl "viewmodel".toList ∨
          containsSub lbl "store".toList ∨ containsSub lbl "state".toList ∨
          containsSub lbl "object".toList) then
      let affected := countAffectedViews g node.id
      if affected ≥ 3 then
        some
          { id := ""
            type := IssueType.wholeObjectPassing
            severity := Severity.medium
            title := "Possible whole-object observation: " ++ node.label
            description := "'" ++ node.label ++ "' appears to be a model/state object affecting " ++
              toString affected ++
              " views. Views may be re-rendering when only part of the object changes."
            impact := "Unnecessary re-renders when unrelated properties change"
            affectedNodes := [node.id]
            causeChain := []
            updateCount := 0
            cascadeDepth := 0
            performanceHint := "Use @Observable with fine-grained properties, or pass only required data to child views"
            confidence := (mkRat 6 10) }
      else none
    else none

/-- Descending insertion by severity rank; an incoming issue passes an
already-placed one only on strictly higher rank, so equal ranks keep their
order (one valid refinement of the unspecified `sort.Slice` tie order). -/
def insertBySev (x : Issue) : List Issue → List Issue
  | [] => [x]
  | y :: ys =>
    if severityRank x.severity > severityRank y.severity then x :: y :: ys
    else y :: insertBySev x ys

/-- Stable sort descending by severity rank (model of `sort.Slice` with the
comparator of `Detect`; see the section comment on tie order). -/
def sortBySeverity : List Issue → List Issue
  | [] => []
  | x :: xs => insertBySev x (sortBySeverity xs)

/-- Sequential `issue-N` id assignment, in creation order. -/
def assignIds (issues : List Issue) : List Issue :=
  issues.enum.map fun p => { p.2 with id := "issue-" ++ toString (p.1 + 1) }

/-- `Detect`: run the six detectors in order, number the issues, then sort
descending by severity rank (modelled stably; see the section comment). -/
def detect (t : Thresholds) (g : Graph) : List Issue :=
  let issues :=
    detectExcessiveRerenders t g ++ detectCascadingUpdates g ++
      detectFrequentTriggers t g ++ detectDeepChains t g ++
      detectTimerCascades g ++ detectWholeObjectPassing g
  sortBySeverity (assignIds issues)

/-! ## Report assembly (internal/aioutput/aioutput.go) -/

/-- `aioutput.Summary` (the fields computed by `calculateSummary`). -/
structure Summary where
  totalCauses : Int
  totalStateChanges : Int
  totalViewUpdates : Int
  totalEdges : Int
  issuesFound : Int
  criticalIssues : Int
  highIssues : Int
  performanceScore : Int
  healthStatus : String
deriving DecidableEq, Repr

/-- Critical count of `calculateSummary`'s severity loop. -/
def countCritical (detected : List Issue) : Int :=
  detected.foldl (fun c i => if i.severity = Severity.critical then c + 1 else c) 0

/-- High count of `calculateSummary`'s severity loop. -/
def countHigh (detected : List Issue) : Int :=
  detected.foldl (fun c i => if i.severity = Severity.high then c + 1 else c) 0

/-- `(*Generator).calculateSummary`. -/
def calculateSummary (gr : Graph) (detected : List Issue) : Summary :=
  let causes := gr.nodes.foldl (fun c p => if p.2.type = NodeType.cause then c + 1 else c) (0 : Int)
  let states := gr.nodes.foldl (fun c p => if p.2.type = NodeType.state then c + 1 else c) (0 : Int)
  let views := gr.nodes.foldl (fun c p => if p.2.type = NodeType.view then c + 1 else c) (0 : Int)
  let critical := countCritical detected
  let high := countHigh detected
  let score0 : Int :=
    100 - critical * 25 - high * 10 - ((detected.length : Int) - critical - high) * 3
  let score := if score0 < 0 then 0 else score0
  let status := if score < 50 then "critical" else if score < 75 then "warning" else "good"
  { totalCauses := causes
    totalStateChanges := states
    totalViewUpdates := views
    totalEdges := gr.edges.length
    issuesFound := detected.length
    criticalIssues := critical
    highIssues := high
    performanceScore := score
    healthStatus := status }

/-! ## Source correlation (internal/correlation, src/unnamed/part_005)

The correlator is modelled from the point where `indexSwiftFiles` has
produced the indexed file list: a `SwiftFile` carries the absolute path, the
path relative to the source root (pure path arithmetic in the source), and
the file's lines.  All regexes here are used via `MatchString`/existence;
the `FindAll` extraction passes of `extractSymbols` reduce to maximal
word-character runs as explained at each definition.  Symbols fed to the
`regexp.QuoteMeta(symbol)` patterns are word-character runs produced by
`extractSymbols`, and the matchers below embed the patterns for such
symbols.  `findMatchesForNode` is modelled at its cache-miss path (the cache
returns previously computed results unchanged).
-/

/-- `correlation.SourceMatch`. -/
structure SourceMatch where
  traceNodeId : String
  traceLabel : String
  nodeType : NodeType
  filePath : String
  relativePath : String
  lineNumber : Int
  codeSnippet : String
  matchType : String
  confidence : ℚ
  matchedSymbol : String
deriving DecidableEq, Repr

/-- One indexed Swift source file. -/
structure SwiftFile where
  path : String
  relPath : String
  lines : List String

/-- Maximal word-character runs of a string, in order (`cur` is the current
run, reversed). -/
def wordRunsAux : List Char → List Char → List (List Char)
  | [], cur => if cur = [] then [] else [cur.reverse]
  | c :: rest, cur =>
    if isWordChar c then wordRunsAux rest (c :: cur)
    else if cur = [] then wordRunsAux rest []
    else cur.reverse :: wordRunsAux rest []

/-- Maximal word-character runs of a string. -/
def wordRuns (l : List Char) : List (List Char) := wordRunsAux l []

/-- `FindAllString` of ``viewPattern = `\b([A-Z][a-zA-Z0-9]*(?:View|Screen|Page|Cell|Row|Item)?)\b` ``:
a match must start at the beginning of a maximal word run (elsewhere the
leading `\b` fails), must then cover the entire run (an underscore in the
run blocks the trailing `\b`, and the optional suffix is already consumed by
the greedy `[a-zA-Z0-9]*`), so the matches are exactly the runs that start
with an upper-case letter and contain no underscore. -/
def viewPatternAll (l : List Char) : List (List Char) :=
  (wordRuns l).filter fun w =>
    (match w with
      | c :: _ => c.isUpper
      | [] => false)
      && !(w.contains '_')

/-- `FindAllString` of ``identPattern = `\b([a-zA-Z_][a-zA-Z0-9_]*)\b` ``: by
the same run argument, exactly the maximal word runs that do not start with
a digit. -/
def identPatternAll (l : List Char) : List (List Char) :=
  (wordRuns l).filter fun w =>
    match w with
    | c :: _ => !c.isDigit
    | [] => false

/-- The six property wrappers of `propPattern`, longest first so that prefix
alternatives (`State`/`StateObject`, `Environment`/`EnvironmentObject`)
resolve as the backtracking `\s+` continuation would. -/
def propWrappers : List String :=
  ["EnvironmentObject", "ObservedObject", "StateObject", "Environment", "Binding", "State"]

/-- Group-1 captures of ``propPattern = `@(?:State|…|Environment)\s+(?:var\s+)?(\w+)` ``:
at an `@`, a wrapper name, mandatory space, an optional `var` + space, then
the greedy word-run capture. -/
def propCaptureAt (l : List Char) : Option (List Char) :=
  propWrappers.firstM fun w =>
    let wl := w.toList
    if wl.isPrefixOf l then
      match l.drop wl.length with
      | c :: rest =>
        if isSpaceRE c then
          let afterWs := rest.dropWhile isSpaceRE
          let body :=
            if "var".toList.isPrefixOf afterWs then
              match afterWs.drop 3 with
              | c2 :: rest2 => if isSpaceRE c2 then rest2.dropWhile isSpaceRE else afterWs
              | [] => afterWs
            else afterWs
          let cap := body.takeWhile isWordChar
          if cap = [] then none else some cap
        else none
      | [] => none
    else none

/-- All group-1 captures of `propPattern` (scan for `@`, capture, continue). -/
def propPatternCaptures : List Char → List (List Char)
  | [] => []
  | c :: rest =>
    if c = '@' then
      match propCaptureAt rest with
      | some cap => cap :: propPatternCaptures rest
      | none => propPatternCaptures rest
    else propPatternCaptures rest

/-- `correlation.isCommonWord`. -/
def isCommonWord (s : String) : Bool :=
  [ "the", "a", "an", "and", "or", "for", "in", "to", "of", "with",
    "var", "let", "func", "struct", "class", "view", "body", "some", "any",
    "true", "false", "nil", "update", "change", "trigger", "cause"
  ].contains (lowerStr s)

/-- `correlation.dedupe`: keep first occurrences. -/
def dedupe (strs : List String) : List String :=
  (strs.foldl (fun acc s => if acc.contains s then acc else acc ++ [s]) [])

/-- `correlation.extractSymbols`: the three extraction passes concatenated,
then deduplicated preserving first-seen order. -/
def extractSymbols (label : String) : List String :=
  let chars := label.data
  let viewSyms := (viewPatternAll chars).map List.asString
  let propSyms := (propPatternCaptures chars).map List.asString
  let identSyms := ((identPatternAll chars).map List.asString).filter fun s => !isCommonWord s
  dedupe (viewSyms ++ propSyms ++ identSyms)

/-- `w₁ \s+ …` style step: require at least one RE2 space then skip the
maximal space run (valid whenever the continuation starts with a non-space
character, which holds for every use below). -/
def wsPlus : List Char → Option (List Char)
  | [] => none
  | c :: rest => if isSpaceRE c then some (rest.dropWhile isSpaceRE) else none

/-- `\s*` skip. -/
def wsStar (l : List Char) : List Char := l.dropWhile isSpaceRE

/-- The `(?:\w+,\s*)*View` tail of the view-declaration pattern. -/
def conformTail (l : List Char) : Bool :=
  "View".toList.isPrefixOf l ||
    (if h : l.takeWhile isWordChar = [] then false
     else
       match hrest : l.dropWhile isWordChar with
       | ',' :: rest2 => conformTail (wsStar rest2)
       | _ => false)
termination_by l.length
decreasing_by
  have h1 : (wsStar rest2).length ≤ rest2.length := (rest2.dropWhile_suffix isSpaceRE).length_le
  have h2 : (l.dropWhile isWordChar).length < l.length := by
    cases l with
    | nil => simp [List.takeWhile_nil] at h
    | cons c rest =>
      by_cases hc : isWordChar c
      · simp only [List.dropWhile_cons, hc, if_true, List.length_cons]
        have := (rest.dropWhile_suffix isWordChar).length_le
        omega
      · simp [List.takeWhile_cons, hc] at h
  have h3 : rest2.length + 1 = (l.dropWhile isWordChar).length := by
    rw [hrest]
    rfl
  omega

/-- ``matchViewDeclaration`` pattern 1:
`struct\s+SYM\s*:\s*(?:\w+,\s*)*View` matching at the head of `t`. -/
def structConformFrom (symbol t : List Char) : Bool :=
  "struct".toList.isPrefixOf t &&
    (match wsPlus (t.drop 6) with
     | none => false
     | some afterWs =>
       symbol.isPrefixOf afterWs &&
         (let afterSym := wsStar (afterWs.drop symbol.length)
          match afterSym with
          | ':' :: rest => conformTail (wsStar rest)
          | _ => false))

/-- ``matchViewDeclaration`` pattern 2: `struct\s+SYM\b` at the head of `t`. -/
def structDeclFrom (symbol t : List Char) : Bool :=
  "struct".toList.isPrefixOf t &&
    (match wsPlus (t.drop 6) with
     | none => false
     | some afterWs =>
       symbol.isPrefixOf afterWs && tailBoundary (afterWs.drop symbol.length))

/-- `correlation.matchViewDeclaration`. -/
def matchViewDeclaration (line symbol : String) : Bool × ℚ :=
  let lc := line.data
  let sc := symbol.data
  if lc.tails.any fun t => structConformFrom sc t then (true, (mkRat 95 100))
  else if (lc.tails.any fun t => structDeclFrom sc t) &&
      containsSub (lcChars symbol) "view".toList then (true, (mkRat 85 100))
  else (false, 0)

/-- `correlation.matchViewBody`. -/
def matchViewBody (line : String) : Bool × ℚ :=
  if containsSub line.data "var body".toList && containsSub line.data "View".toList then
    (true, (mkRat 5 10))
  else (false, 0)

/-- `@(?:W₁|W₂)\s+(?:private\s+)?var\s+SYM\b` matching at the head of `t`,
for one wrapper `w` (with its `@`). -/
def stateDeclFrom (w symbol t : List Char) : Bool :=
  w.isPrefixOf t &&
    (match wsPlus (t.drop w.length) with
     | none => false
     | some afterWs =>
       let afterOpt :=
         if "private".toList.isPrefixOf afterWs then
           match wsPlus (afterWs.drop 7) with
           | some r => r
           | none => afterWs
         else afterWs
       "var".toList.isPrefixOf afterOpt &&
         (match wsPlus (afterOpt.drop 3) with
          | none => false
          | some afterVar =>
            symbol.isPrefixOf afterVar && tailBoundary (afterVar.drop symbol.length)))

/-- One alternative family of `matchStateDeclaration`. -/
def stateDeclMatch (wrappers : List String) (line symbol : String) : Bool :=
  line.data.tails.any fun t =>
    wrappers.any fun w => stateDeclFrom w.toList symbol.data t

/-- `correlation.matchStateDeclaration`. -/
def matchStateDeclaration (line symbol : String) : Bool × ℚ :=
  if stateDeclMatch ["@State", "@StateObject"] line symbol then (true, (mkRat 95 100))
  else if stateDeclMatch ["@ObservedObject", "@EnvironmentObject"] line symbol then (true, (mkRat 9 10))
  else if stateDeclMatch ["@Binding"] line symbol then (true, (mkRat 85 100))
  else (false, 0)

/-- `correlation.matchCausePattern`. -/
def matchCausePattern (line symbol : String) : Bool × ℚ :=
  let lowerLine := lcChars line
  let lowerSymbol := lcChars symbol
  if containsSub lowerLine "button".toList && containsSub lowerLine lowerSymbol then (true, (mkRat 85 100))
  else if ["ontapgesture", "ondraggesture", "onlongpressgesture", "gesture"].any
      (fun gw => containsSub lowerLine gw.toList) then (true, (mkRat 8 10))
  else if containsSub lowerLine "timer".toList then (true, (mkRat 75 100))
  else if containsSub lowerLine "notificationcenter".toList ||
      containsSub lowerLine "onreceive".toList then (true, (mkRat 7 10))
  else (false, 0)

/-- `correlation.truncate` (Go bytes, modelled as characters; ASCII in every
concrete evaluation). -/
def truncateSnippet (s : String) (mx : Nat) : String :=
  if s.length ≤ mx then s else (s.take (mx - 3)) ++ "..."

/-- `correlation.matchLineForSymbol`. -/
def matchLineForSymbol (line symbol : String) (node : Node) (filePath relPath : String)
    (lineNum : Int) : Option SourceMatch :=
  if ¬ containsSub line.data symbol.data then none
  else
    let trimmedLine := line.trim
    let res : ℚ × String :=
      match node.type with
      | NodeType.view =>
        let d := matchViewDeclaration line symbol
        if d.1 then (d.2, "exact")
        else
          let b := matchViewBody line
          if b.1 then (b.2, "inferred") else (0, "fuzzy")
      | NodeType.state =>
        let d := matchStateDeclaration line symbol
        if d.1 then (d.2, "exact") else (0, "fuzzy")
      | NodeType.cause =>
        let d := matchCausePattern line symbol
        if d.1 then (d.2, "exact") else (0, "fuzzy")
      | NodeType.other => ((mkRat 3 10), "fuzzy")
    if res.1 < (mkRat 3 10) then none
    else some
      { traceNodeId := node.id
        traceLabel := node.label
        nodeType := node.type
        filePath := filePath
        relativePath := relPath
        lineNumber := lineNum
        codeSnippet := truncateSnippet trimmedLine 120
        matchType := res.2
        confidence := res.1
        matchedSymbol := symbol }

/-- `correlation.searchFileForSymbols`: scan lines in order, symbols in
order within each line. -/
def searchFileForSymbols (f : SwiftFile) (node : Node) (symbols : List String) :
    List SourceMatch :=
  (f.lines.enum).flatMap fun p =>
    symbols.filterMap fun symbol =>
      matchLineForSymbol p.2 symbol node f.path f.relPath ((p.1 : Int) + 1)

/-- The inner `j`-loop of `correlation.sortByConfidence` for a fixed `i`:
scan the tail, swapping the pivot whenever a strictly larger confidence is
found; returns the final pivot and the rewritten tail. -/
def innerPass (x : SourceMatch) : List SourceMatch → SourceMatch × List SourceMatch
  | [] => (x, [])
  | y :: ys =>
    if y.confidence > x.confidence then
      let r := innerPass y ys
      (r.1, x :: r.2)
    else
      let r := innerPass x ys
      (r.1, y :: r.2)

lemma innerPass_length (x : SourceMatch) (l : List SourceMatch) :
    (innerPass x l).2.length = l.length := by
  induction l generalizing x with
  | nil => rfl
  | cons y ys ih =>
    by_cases h : y.confidence > x.confidence <;> simp [innerPass, h, ih]

/-- The outer `i`-loop of `correlation.sortByConfidence`, with an explicit
iteration count (structural recursion so that the kernel can evaluate it;
`innerPass` preserves length, so `fuel = length` runs the loop to
completion, see `sortByConfidence`). -/
def sortByConfidenceAux : Nat → List SourceMatch → List SourceMatch
  | 0, l => l
  | _ + 1, [] => []
  | fuel + 1, x :: xs =>
    let r := innerPass x xs
    r.1 :: sortByConfidenceAux fuel r.2

/-- `correlation.sortByConfidence`: the exchange sort of the source. -/
def sortByConfidence (l : List SourceMatch) : List SourceMatch :=
  sortByConfidenceAux l.length l

/-- `correlation.findMatchesForNode` (cache-miss path): extract symbols,
scan every indexed file, sort by confidence. -/
def findMatchesForNode (swiftFiles : List SwiftFile) (node : Node) : List SourceMatch :=
  sortByConfidence
    (swiftFiles.flatMap fun f => searchFileForSymbols f node (extractSymbols node.label))

/-! ## Concrete values used by the evaluations below -/

/-- An issue whose only relevant field is its severity (all other fields are
immaterial to `calculateSummary`). -/
def issueOfSeverity (s : Severity) : Issue :=
  { id := "", type := IssueType.excessiveRerender, severity := s, title := "",
    description := "", impact := "", affectedNodes := [], causeChain := [],
    updateCount := 0, cascadeDepth := 0, performanceHint := "", confidence := (mkRat 85 100) }

/-- Upsert record with label `a`, kind State. -/
def cexNodeA : Node := { id := "x", label := "a", type := NodeType.state, count := 1 }

/-- Upsert record with label `b`, kind View. -/
def cexNodeB : Node := { id := "x", label := "b", type := NodeType.view, count := 2 }

/-- One View node whose count is exactly twice the default re-render
threshold. -/
def cexRerenderGraph : Graph :=
  { nodes := [("v1", { id := "v1", label := "ItemRow", type := NodeType.view, count := 20 })],
    edges := [] }

/-- One State node (distinct id and label) with edges to three View nodes
whose ids and labels differ. -/
def cexCascadeGraph : Graph :=
  { nodes :=
      [ ("s1", { id := "s1", label := "AppState", type := NodeType.state, count := 0 }),
        ("v1", { id := "v1", label := "V1", type := NodeType.view, count := 0 }),
        ("v2", { id := "v2", label := "V2", type := NodeType.view, count := 0 }),
        ("v3", { id := "v3", label := "V3", type := NodeType.view, count := 0 }) ],
    edges :=
      [ { src := "s1", dst := "v1", label := "" },
        { src := "s1", dst := "v2", label := "" },
        { src := "s1", dst := "v3", label := "" } ] }

/-- One State node and one View node joined by three identical edges. -/
def dupEdgeGraph : Graph :=
  { nodes :=
      [ ("s", { id := "s", label := "AppState", type := NodeType.state, count := 0 }),
        ("v", { id := "v", label := "ItemView", type := NodeType.view, count := 0 }) ],
    edges := List.replicate 3 { src := "s", dst := "v", label := "updates" } }

/-- One stored node `a` with a dangling edge chain `a → b → c` (`b`, `c` are
not stored nodes). -/
def danglingGraph : Graph :=
  { nodes := [("a", { id := "a", label := "A", type := NodeType.cause, count := 0 })],
    edges :=
      [ { src := "a", dst := "b", label := "" },
        { src := "b", dst := "c", label := "" } ] }

/-- A State node whose label yields the single symbol `counterVal`. -/
def cexC7Node : Node :=
  { id := "s1", label := "counterVal", type := NodeType.state, count := 0 }

/-- A source file whose lines hit the `@Binding` (confidence 85/100) and
`@ObservedObject` (confidence 9/10) state patterns alternately, so the pre-sort match
confidences arrive as (mkRat 85 100), (mkRat 9 10), (mkRat 85 100), (mkRat 9 10) in line order. -/
def cexC7File : SwiftFile :=
  { path := "/src/A.swift", relPath := "A.swift",
    lines :=
      [ "@Binding var counterVal: Int",
        "@ObservedObject var counterVal: M",
        "@Binding var counterVal: Bool",
        "@ObservedObject var counterVal: N" ] }

/-! ## Lemmas -/

lemma lookupNode_updateEntry (l : List (String × Node)) (i : String) (n : Node) :
    lookupNode (updateEntry l i n) i = (lookupNode l i).map (fun e => mergeNode e n) := by
  induction l with
  | nil => rfl
  | cons p rest ih =>
    obtain ⟨k, e⟩ := p
    by_cases h : k = i
    · subst h
      simp only [updateEntry, List.map_cons]
      simp [lookupNode]
    · simp only [updateEntry, List.map_cons] at ih ⊢
      rw [show (if (k, e).1 = i then ((k, e).1, mergeNode (k, e).2 n) else (k, e)) = (k, e) from
        if_neg h]
      simpa [lookupNode, h] using ih

lemma lookupNode_append_self (l : List (String × Node)) (i : String) (n : Node)
    (h : lookupNode l i = none) : lookupNode (l ++ [(i, n)]) i = some n := by
  induction l with
  | nil => simp [lookupNode]
  | cons p rest ih =>
    by_cases hp : p.1 = i
    · simp [lookupNode, hp] at h
    · simp [lookupNode, hp] at h ⊢
      exact ih h

lemma upsertList_lookup (recs : List Node) (g : Graph) (i : String) (cur : Node)
    (hcur : lookupNode g.nodes i = some cur) (hall : ∀ r ∈ recs, r.id = i) :
    lookupNode (upsertList g recs).nodes i = some (recs.foldl mergeNode cur) := by
  induction recs generalizing g cur with
  | nil => simpa [upsertList] using hcur
  | cons r rest ih =>
    have hid : r.id = i := hall r (by simp)
    have step : lookupNode (upsertNode g r).nodes i = some (mergeNode cur r) := by
      rw [upsertNode, hid, hcur]
      simp [lookupNode_updateEntry, hcur]
    have := ih (upsertNode g r) (mergeNode cur r) step (fun x hx => hall x (by simp [hx]))
    simpa [upsertList] using this

lemma foldl_merge_label (rs : List Node) (cur : Node) :
    (rs.foldl mergeNode cur).label = firstNonEmptyFrom cur.label (rs.map Node.label) := by
  induction rs generalizing cur with
  | nil => rfl
  | cons r rest ih =>
    simp only [List.foldl_cons, List.map_cons, firstNonEmptyFrom, ih]
    rfl

lemma foldl_merge_type (rs : List Node) (cur : Node) :
    (rs.foldl mergeNode cur).type = firstSpecificFrom cur.type (rs.map Node.type) := by
  induction rs generalizing cur with
  | nil => rfl
  | cons r rest ih =>
    simp only [List.foldl_cons, List.map_cons, firstSpecificFrom, ih]
    rfl

lemma foldl_merge_count (rs : List Node) (cur : Node) :
    (rs.foldl mergeNode cur).count = maxCountFrom cur.count (rs.map Node.count) := by
  induction rs generalizing cur with
  | nil => rfl
  | cons r rest ih =>
    simp only [List.foldl_cons, List.map_cons, maxCountFrom, ih]
    rfl

lemma maxCountFrom_perm {l₁ l₂ : List Int} (p : l₁.Perm l₂) (seed : Int) :
    maxCountFrom seed l₁ = maxCountFrom seed l₂ := by
  induction p generalizing seed with
  | nil => rfl
  | cons x _ ih => simpa [maxCountFrom] using ih _
  | swap x y l =>
    simp only [maxCountFrom, List.foldl_cons]
    congr 1
    split_ifs <;> omega
  | trans _ _ ih₁ ih₂ => exact (ih₁ seed).trans (ih₂ seed)

lemma mergeNode_assoc (a b c : Node) :
    mergeNode (mergeNode a b) c = mergeNode a (mergeNode b c) := by
  obtain ⟨aid, al, aty, ac⟩ := a
  obtain ⟨bid, bl, bty, bc⟩ := b
  obtain ⟨cid, cl, cty, cc⟩ := c
  simp only [mergeNode, Node.mk.injEq]
  refine ⟨trivial, ?_, ?_, ?_⟩
  · by_cases h1 : al = "" <;> by_cases h2 : bl = "" <;> simp [h1, h2]
  · by_cases h1 : aty = NodeType.other <;> by_cases h2 : bty = NodeType.other <;>
      simp [h1, h2]
  · split_ifs <;> omega

lemma mem_keys_of_mem {l : List (String × Node)} {i : String} {a : Node}
    (h : (i, a) ∈ l) : i ∈ l.map Prod.fst :=
  List.mem_map.mpr ⟨(i, a), h, rfl⟩

lemma eq_of_mem_nodup_keys {l : List (String × Node)} {i : String} {a b : Node}
    (hnd : (l.map Prod.fst).Nodup) (ha : (i, a) ∈ l) (hb : (i, b) ∈ l) : a = b := by
  induction l with
  | nil => simp at ha
  | cons p rest ih =>
    simp only [List.map_cons, List.nodup_cons] at hnd
    rcases List.mem_cons.mp ha with rfl | ha2
    · rcases List.mem_cons.mp hb with heq | hb2
      · exact (congrArg Prod.snd heq).symm
      · exact absurd (mem_keys_of_mem hb2) hnd.1
    · rcases List.mem_cons.mp hb with rfl | hb2
      · exact absurd (mem_keys_of_mem ha2) hnd.1
      · exact ih hnd.2 ha2 hb2

lemma countP_filterMap {α β : Type} (l : List α) (f : α → Option β) (p : β → Bool) :
    (l.filterMap f).countP p = l.countP fun a => ((f a).map p).getD false := by
  induction l with
  | nil => rfl
  | cons x rest ih =>
    rw [List.filterMap_cons]
    cases hx : f x with
    | none => simp [List.countP_cons, hx, ih]
    | some b =>
      by_cases hp : p b <;> simp [List.countP_cons, hx, hp, ih]

lemma countP_eq_one_of_unique_key (l : List (String × Node)) (i : String) (n : Node)
    (q : String × Node → Bool) (hmem : (i, n) ∈ l)
    (hnd : (l.map Prod.fst).Nodup) (hwf : ∀ p ∈ l, p.1 = p.2.id) (hid : i = n.id)
    (hq : q (i, n) = true) (himp : ∀ p ∈ l, q p = true → p.2.id = n.id) :
    l.countP q = 1 := by
  induction l with
  | nil => simp at hmem
  | cons hd rest ih =>
    simp only [List.map_cons, List.nodup_cons] at hnd
    rcases List.mem_cons.mp hmem with rfl | hmem2
    · have hrest0 : rest.countP q = 0 := List.countP_eq_zero.mpr (by
        intro p hp hqp
        have hkey : p.1 = p.2.id := hwf p (List.mem_cons_of_mem _ hp)
        have hpi : p.1 = i := by rw [hkey, himp p (List.mem_cons_of_mem _ hp) hqp, ← hid]
        have hpk : p.1 ∈ List.map Prod.fst rest := List.mem_map.mpr ⟨p, hp, rfl⟩
        rw [hpi] at hpk
        exact absurd hpk hnd.1)
      rw [List.countP_cons, hrest0, hq]
      simp
    · have hq0 : q hd = false := by
        by_contra hc
        have hqt : q hd = true := by revert hc; cases q hd <;> simp
        have hkey : hd.1 = hd.2.id := hwf hd (List.mem_cons_self _ _)
        have hdi : hd.1 = i := by rw [hkey, himp hd (List.mem_cons_self _ _) hqt, ← hid]
        have hik : i ∈ List.map Prod.fst rest := List.mem_map.mpr ⟨(i, n), hmem2, rfl⟩
        rw [← hdi] at hik
        exact hnd.1 hik
      rw [List.countP_cons, hq0]
      have hone := ih hmem2 hnd.2 (fun p hp => hwf p (List.mem_cons_of_mem _ hp))
        (fun p hp => himp p (List.mem_cons_of_mem _ hp))
      simp [hone]

lemma innerPass_perm (x : SourceMatch) (l : List SourceMatch) :
    ((innerPass x l).1 :: (innerPass x l).2).Perm (x :: l) := by
  induction l generalizing x with
  | nil => exact List.Perm.refl _
  | cons y ys ih =>
    by_cases h : y.confidence > x.confidence
    · simp only [innerPass, h, if_true]
      exact (List.Perm.swap x (innerPass y ys).1 (innerPass y ys).2).trans
        (List.Perm.cons x (ih y))
    · simp only [innerPass, h, if_false]
      exact ((List.Perm.swap y (innerPass x ys).1 (innerPass x ys).2).trans
        (List.Perm.cons y (ih x))).trans (List.Perm.swap x y ys)

lemma innerPass_pivot_le (x : SourceMatch) (l : List SourceMatch) :
    x.confidence ≤ (innerPass x l).1.confidence := by
  induction l generalizing x with
  | nil => exact le_refl _
  | cons y ys ih =>
    by_cases h : y.confidence > x.confidence
    · simp only [innerPass, h, if_true]
      exact le_of_lt (lt_of_lt_of_le h (ih y))
    · simp only [innerPass, h, if_false]
      exact ih x

lemma innerPass_max (x : SourceMatch) (l : List SourceMatch) :
    ∀ m ∈ (innerPass x l).2, m.confidence ≤ (innerPass x l).1.confidence := by
  induction l generalizing x with
  | nil => simp [innerPass]
  | cons y ys ih =>
    by_cases h : y.confidence > x.confidence
    · simp only [innerPass, h, if_true]
      intro m hm
      rcases List.mem_cons.mp hm with rfl | hm2
      · exact le_of_lt (lt_of_lt_of_le h (innerPass_pivot_le y ys))
      · exact ih y m hm2
    · simp only [innerPass, h, if_false]
      intro m hm
      rcases List.mem_cons.mp hm with rfl | hm2
      · exact le_trans (not_lt.mp h) (innerPass_pivot_le x ys)
      · exact ih x m hm2

lemma sortByConfidenceAux_perm :
    ∀ (fuel : Nat) (l : List SourceMatch), (sortByConfidenceAux fuel l).Perm l := by
  intro fuel
  induction fuel with
  | zero => intro l; exact List.Perm.refl _
  | succ fuel ih =>
    intro l
    cases l with
    | nil => exact List.Perm.refl _
    | cons x xs =>
      rw [sortByConfidenceAux]
      exact (List.Perm.cons _ (ih _)).trans (innerPass_perm x xs)

lemma sortByConfidence_perm (l : List SourceMatch) : (sortByConfidence l).Perm l :=
  sortByConfidenceAux_perm l.length l

lemma sortByConfidenceAux_sorted :
    ∀ (fuel : Nat) (l : List SourceMatch), l.length ≤ fuel →
      (sortByConfidenceAux fuel l).Pairwise fun a b => b.confidence ≤ a.confidence := by
  intro fuel
  induction fuel with
  | zero =>
    intro l hl
    rw [List.length_eq_zero.mp (Nat.le_zero.mp hl)]
    exact List.Pairwise.nil
  | succ fuel ih =>
    intro l hl
    cases l with
    | nil => exact List.Pairwise.nil
    | cons x xs =>
      rw [sortByConfidenceAux]
      refine List.Pairwise.cons ?_ (ih _ ?_)
      · intro m hm
        exact innerPass_max x xs m ((sortByConfidenceAux_perm _ _).mem_iff.mp hm)
      · rw [innerPass_length]
        simpa using hl

lemma sortByConfidence_sorted (l : List SourceMatch) :
    (sortByConfidence l).Pairwise fun a b => b.confidence ≤ a.confidence :=
  sortByConfidenceAux_sorted l.length l (le_refl _)

lemma chainFold_isSome {rec : String → Option (List String)} {nodeID : String}
    (es : List Edge) (acc : List String)
    (h : ∀ e ∈ es, e.src = nodeID → (rec e.dst).isSome) :
    (chainFold rec nodeID es acc).isSome := by
  induction es generalizing acc with
  | nil => simp [chainFold]
  | cons e rest ih =>
    by_cases hs : e.src = nodeID
    · obtain ⟨sub, hsub⟩ := Option.isSome_iff_exists.mp (h e (by simp) hs)
      rw [chainFold]
      simp only [hs, if_true, hsub]
      exact ih _ fun e2 he2 hs2 => h e2 (by simp [he2]) hs2
    · rw [chainFold]
      simp only [hs, if_false]
      exact ih _ fun e2 he2 hs2 => h e2 (by simp [he2]) hs2

lemma findLongestChainF_isSome (g : Graph) :
    ∀ (fuel : Nat) (nodeID : String) (visited : List String),
      ((idList g).toFinset \ visited.toFinset).card < fuel →
      (findLongestChainF g fuel nodeID visited).isSome := by
  intro fuel
  induction fuel with
  | zero => intro _ _ h; omega
  | succ fuel ih =>
    intro nodeID visited hcard
    rw [findLongestChainF]
    by_cases hmem : nodeID ∈ visited
    · simp [hmem]
    · simp only [hmem, if_false]
      apply chainFold_isSome
      intro e he hsrc
      apply ih
      have hidl : nodeID ∈ idList g := by
        rw [idList]
        exact List.mem_append.mpr (Or.inl (List.mem_append.mpr
          (Or.inr (List.mem_map.mpr ⟨e, he, hsrc⟩))))
      have hin : nodeID ∈ (idList g).toFinset \ visited.toFinset := by
        rw [Finset.mem_sdiff]
        exact ⟨List.mem_toFinset.mpr hidl, by simpa using hmem⟩
      have hsub : (idList g).toFinset \ (nodeID :: visited).toFinset ⊆
          ((idList g).toFinset \ visited.toFinset).erase nodeID := by
        intro x hx
        simp only [Finset.mem_sdiff, List.toFinset_cons, Finset.mem_insert,
          Finset.mem_erase, not_or] at hx ⊢
        exact ⟨hx.2.1, hx.1, hx.2.2⟩
      have h1 := Finset.card_le_card hsub
      have h2 := Finset.card_erase_of_mem hin
      have h3 : 0 < ((idList g).toFinset \ visited.toFinset).card :=
        Finset.card_pos.mpr ⟨nodeID, hin⟩
      omega

lemma chainFold_some_invariant (P : List String → Prop)
    {rec : String → Option (List String)} {nodeID : String}
    (es : List Edge) (acc : List String) (hacc : P acc)
    (hrec : ∀ e ∈ es, e.src = nodeID → ∀ sub, rec e.dst = some sub → P (nodeID :: sub)) :
    ∀ r, chainFold rec nodeID es acc = some r → P r := by
  induction es generalizing acc with
  | nil =>
    intro r hr
    rw [chainFold] at hr
    exact Option.some_injective _ hr ▸ hacc
  | cons e rest ih =>
    intro r hr
    rw [chainFold] at hr
    by_cases hs : e.src = nodeID
    · simp only [hs, if_true] at hr
      cases hsub : rec e.dst with
      | none => rw [hsub] at hr; exact absurd hr (by simp)
      | some sub =>
        rw [hsub] at hr
        refine ih _ ?_ (fun e2 he2 => hrec e2 (by simp [he2])) r hr
        by_cases hlen : sub.length + 1 > acc.length
        · simpa [hlen] using hrec e (by simp) hs sub hsub
        · simpa [hlen] using hacc
    · simp only [hs, if_false] at hr
      exact ih _ hacc (fun e2 he2 => hrec e2 (by simp [he2])) r hr

lemma findLongestChainF_chain_nodup (g : Graph) :
    ∀ (fuel : Nat) (nodeID : String) (visited : List String) (r : List String),
      findLongestChainF g fuel nodeID visited = some r →
      r.Nodup ∧ ∀ x ∈ r, x ∉ visited := by
  intro fuel
  induction fuel with
  | zero => intro _ _ r hr; exact absurd hr (by simp [findLongestChainF])
  | succ fuel ih =>
    intro nodeID visited r hr
    rw [findLongestChainF] at hr
    by_cases hmem : nodeID ∈ visited
    · simp only [hmem, if_true] at hr
      cases hr
      simp
    · simp only [hmem, if_false] at hr
      refine chainFold_some_invariant (fun r => r.Nodup ∧ ∀ x ∈ r, x ∉ visited)
        g.edges [nodeID] ⟨List.nodup_singleton _, ?_⟩ ?_ r hr
      · intro x hx
        rw [List.mem_singleton.mp hx]
        exact hmem
      · intro e _ _ sub hsub
        obtain ⟨hnd, hdisj⟩ := ih e.dst (nodeID :: visited) sub hsub
        have hnotin : nodeID ∉ sub := fun hc => hdisj nodeID hc (List.mem_cons_self _ _)
        refine ⟨List.nodup_cons.mpr ⟨hnotin, hnd⟩, ?_⟩
        intro x hx
        rcases List.mem_cons.mp hx with rfl | hx2
        · exact hmem
        · exact fun hc => hdisj x hx2 (List.mem_cons_of_mem _ hc)

lemma severityBands (t count : Int) (ht : 0 ≤ t)
    (s : Severity)
    (hs : s = if count > t * 3 then Severity.critical
      else if count > t * 2 then Severity.high else Severity.medium) :
    (s = Severity.medium ↔ count ≤ 2 * t) ∧
    (s = Severity.high ↔ (2 * t < count ∧ count ≤ 3 * t)) ∧
    (s = Severity.critical ↔ 3 * t < count) := by
  subst hs
  split_ifs with h1 h2 <;>
    refine ⟨?_, ?_, ?_⟩ <;> constructor <;> intro hx <;>
    first
      | rfl
      | omega
      | simpa using hx

lemma foldlHash_lt (l : List Char) (seed : Nat) (h : seed < 2 ^ 31) :
    l.foldl (fun h c => (h * 31 + c.toNat) % 2 ^ 31) seed < 2 ^ 31 := by
  induction l generalizing seed with
  | nil => exact h
  | cons c rest ih => exact ih _ (Nat.mod_lt _ (by norm_num))

lemma labelHash_lt (label : String) : labelHash label < 2 ^ 31 :=
  foldlHash_lt label.data 0 (by norm_num)

lemma idOrHash_synth_head (label : String) :
    (idOrHash "" label).data.head? = some 'n' := by
  rw [idOrHash]
  simp only [ne_eq, not_true_eq_false, if_false]
  rw [String.data_append]
  rfl

/-! ## Claims -/

/-- C1 (counterexample): two upserts of the same id with different non-empty
labels and different specific kinds give different stored nodes under the two
insertion orders — the merge is not commutative and the fold is not
permutation-invariant.  The two upsert sequences are permutations of each
other. -/
theorem claim_c1_counterexample :
    lookupNode (upsertList Graph.new [cexNodeA, cexNodeB]).nodes "x" ≠
      lookupNode (upsertList Graph.new [cexNodeB, cexNodeA]).nodes "x" ∧
    [cexNodeA, cexNodeB].Perm [cexNodeB, cexNodeA] :=
  ⟨by decide, List.Perm.swap _ _ _⟩

/-- C1 (amended): for every sequence of `UpsertNode` calls with one id, the
stored node is the left fold of the merge over the records in arrival order:
its label is the first non-empty label, its kind the first non-`Other` kind,
and its count the maximum count.  The merge is associative, and the count
component (max) is permutation-invariant, but label and kind depend on
arrival order when records conflict, so the merge is not commutative. -/
theorem claim_c1_amended (i : String) (r : Node) (rs : List Node)
    (hr : r.id = i) (hall : ∀ x ∈ rs, x.id = i) :
    lookupNode (upsertList Graph.new (r :: rs)).nodes i = some (rs.foldl mergeNode r) ∧
    (rs.foldl mergeNode r).label = firstNonEmptyFrom r.label (rs.map Node.label) ∧
    (rs.foldl mergeNode r).type = firstSpecificFrom r.type (rs.map Node.type) ∧
    (rs.foldl mergeNode r).count = maxCountFrom r.count (rs.map Node.count) ∧
    (∀ a b c : Node, mergeNode (mergeNode a b) c = mergeNode a (mergeNode b c)) ∧
    ∀ rs2 : List Node, rs2.Perm rs →
      maxCountFrom r.count (rs2.map Node.count) = maxCountFrom r.count (rs.map Node.count) := by
  subst hr
  refine ⟨?_, foldl_merge_label rs r, foldl_merge_type rs r, foldl_merge_count rs r,
    mergeNode_assoc, fun rs2 hp => maxCountFrom_perm (hp.map Node.count) r.count⟩
  have h0 : lookupNode (upsertNode Graph.new r).nodes r.id = some r := by
    simp [upsertNode, Graph.new, lookupNode]
  have := upsertList_lookup rs (upsertNode Graph.new r) r.id r h0 hall
  simpa [upsertList] using this

/-- C1 (witness): the amended theorem evaluated on the two concrete records:
the stored node is the merge of the first with the second. -/
theorem claim_c1_witness :
    lookupNode (upsertList Graph.new [cexNodeA, cexNodeB]).nodes "x" =
      some (mergeNode cexNodeA cexNodeB) := by
  have h := claim_c1_amended "x" cexNodeA [cexNodeB] (by decide)
    (by intro x hx; rcases List.mem_singleton.mp hx with rfl; decide)
  exact h.1

/-- C2: for every graph and issue list, the performance score is 100 minus
25 per critical, minus 10 per high, minus 3 per other issue, floored at 0;
the health label is good at ≥ 75, warning at ≥ 50, critical below; and the
five calibration rows hold (0 issues → 100/good, 1 critical → 75/good,
2 critical → 50/warning, 3 critical → 25/critical, 2 high → 80/good). -/
theorem claim_c2 (g : Graph) (detected : List Issue) :
    ((calculateSummary g detected).performanceScore =
      max 0 (100 - 25 * countCritical detected - 10 * countHigh detected -
        3 * ((detected.length : Int) - countCritical detected - countHigh detected))) ∧
    ((calculateSummary g detected).healthStatus =
      if 75 ≤ (calculateSummary g detected).performanceScore then "good"
      else if 50 ≤ (calculateSummary g detected).performanceScore then "warning"
      else "critical") ∧
    (calculateSummary Graph.new []).performanceScore = 100 ∧
    (calculateSummary Graph.new []).healthStatus = "good" ∧
    (calculateSummary Graph.new [issueOfSeverity Severity.critical]).performanceScore = 75 ∧
    (calculateSummary Graph.new [issueOfSeverity Severity.critical]).healthStatus = "good" ∧
    (calculateSummary Graph.new
      (List.replicate 2 (issueOfSeverity Severity.critical))).performanceScore = 50 ∧
    (calculateSummary Graph.new
      (List.replicate 2 (issueOfSeverity Severity.critical))).healthStatus = "warning" ∧
    (calculateSummary Graph.new
      (List.replicate 3 (issueOfSeverity Severity.critical))).performanceScore = 25 ∧
    (calculateSummary Graph.new
      (List.replicate 3 (issueOfSeverity Severity.critical))).healthStatus = "critical" ∧
    (calculateSummary Graph.new
      (List.replicate 2 (issueOfSeverity Severity.high))).performanceScore = 80 ∧
    (calculateSummary Graph.new
      (List.replicate 2 (issueOfSeverity Severity.high))).healthStatus = "good" := by
  refine ⟨?_, ?_, by decide, by decide, by decide, by decide, by decide, by decide,
    by decide, by decide, by decide, by decide⟩
  · simp only [calculateSummary]
    split_ifs <;> omega
  · simp only [calculateSummary]
    split_ifs <;> first | rfl | omega

/-- C5 (counterexample): a structured record whose type field is exactly
`view` but whose label matches the state keyword regex is classified as
State, not View — the label heuristics are consulted even when the type
field names a known kind, and a state-heuristic hit overrides the type
field. -/
theorem claim_c5_counterexample :
    classify "view" "state change" = NodeType.state ∧
    NodeType.state ≠ NodeType.view := by decide

/-- C5 (amended): `classify` tests, in State → View → Cause → Other priority
order, the disjunction of a substring test on the lower-cased type field and
the keyword regex on the lower-cased label; the label heuristics are
consulted in every branch, not only when the type field is absent or
unknown. -/
theorem claim_c5_amended (kind label : String) :
    (classify kind label = NodeType.state ↔
      (containsSub (lcChars kind) "state".toList = true ∨
        reStateMatch (lcChars label) = true)) ∧
    (classify kind label = NodeType.view ↔
      (¬(containsSub (lcChars kind) "state".toList = true ∨
          reStateMatch (lcChars label) = true) ∧
        (containsSub (lcChars kind) "view".toList = true ∨
          reViewMatch (lcChars label) = true))) ∧
    (classify kind label = NodeType.cause ↔
      (¬(containsSub (lcChars kind) "state".toList = true ∨
          reStateMatch (lcChars label) = true) ∧
        ¬(containsSub (lcChars kind) "view".toList = true ∨
          reViewMatch (lcChars label) = true) ∧
        (containsSub (lcChars kind) "cause".toList = true ∨
          reCauseMatch (lcChars label) = true))) ∧
    (classify kind label = NodeType.other ↔
      (¬(containsSub (lcChars kind) "state".toList = true ∨
          reStateMatch (lcChars label) = true) ∧
        ¬(containsSub (lcChars kind) "view".toList = true ∨
          reViewMatch (lcChars label) = true) ∧
        ¬(containsSub (lcChars kind) "cause".toList = true ∨
          reCauseMatch (lcChars label) = true))) := by
  by_cases h1 : containsSub (lcChars kind) "state".toList = true ∨
      reStateMatch (lcChars label) = true <;>
    by_cases h2 : containsSub (lcChars kind) "view".toList = true ∨
      reViewMatch (lcChars label) = true <;>
    by_cases h3 : containsSub (lcChars kind) "cause".toList = true ∨
      reCauseMatch (lcChars label) = true <;>
    simp_all [classify]

/-- C9 (counterexample): the synthesized id of the empty label is `n0`, and
a hand-authored explicit id `n0` passes through `idOrHash` unchanged, so an
explicit id can collide with a synthesized one — the `n` prefix does not
rule collisions out. -/
theorem claim_c9_counterexample :
    idOrHash "n0" "whatever" = idOrHash "" "" ∧
    idOrHash "n0" "whatever" = "n0" ∧ ("n0" : String) ≠ "" := by decide

/-- C9 (amended): the synthesized id is the pure function
`"n" ++ (31-bit rolling hash of the label)` — the same label always yields
the same id — and an explicit id passes through unchanged; a synthesized id
cannot collide with an explicit id unless that id itself starts with `n`. -/
theorem claim_c9_amended (label lbl2 id : String) (hne : id ≠ "")
    (hfirst : id.data.head? ≠ some 'n') :
    idOrHash "" label = "n" ++ toString (labelHash label) ∧
    labelHash label < 2 ^ 31 ∧
    idOrHash id lbl2 = id ∧
    idOrHash "" label ≠ idOrHash id lbl2 := by
  refine ⟨by simp [idOrHash], labelHash_lt label, by simp [idOrHash, hne], ?_⟩
  rw [show idOrHash id lbl2 = id from by simp [idOrHash, hne]]
  intro hc
  exact hfirst (hc ▸ idOrHash_synth_head label)

/-- C9 (witness): the amended theorem evaluated at the label
`counter changed` and the explicit id `explicit-id`. -/
theorem claim_c9_witness :
    idOrHash "" "counter changed" ≠ idOrHash "explicit-id" "counter changed" := by
  have h := claim_c9_amended "counter changed" "counter changed" "explicit-id"
    (by decide) (by decide)
  exact h.2.2.2

/-- C4: once the directory walk has completed without an I/O error,
`ParseTrace` fails with the distinct no-data error exactly when the built
graph has no nodes or no edges; otherwise it returns the graph, and that is
the only error it can produce at this stage.  Appending one malformed
`.json` file (unmarshal failure) to any walk leaves the graph unchanged and
only appends one hint and bumps the file counter. -/
theorem claim_c4 (files : List TraceFile) (nm e : String) (lines : List String) :
    (parseTrace files = Except.error errNoData ↔
      (parseDirectory files).1.nodes = [] ∨ (parseDirectory files).1.edges = []) ∧
    (parseTrace files = Except.error errNoData ∨
      parseTrace files = Except.ok
        { graph := (parseDirectory files).1,
          filesParsed := (parseDirectory files).2.filesParsed,
          hints := (parseDirectory files).2.hints }) ∧
    parseDirectory (files ++
        [{ name := nm, ext := ".json", lines := lines, decoded := Except.error e,
           readErr := none }]) =
      ((parseDirectory files).1,
        { filesParsed := (parseDirectory files).2.filesParsed + 1,
          hints := (parseDirectory files).2.hints ++
            ["JSON parse skipped " ++ nm ++ ": " ++ e] }) := by
  refine ⟨?_, ?_, ?_⟩
  · rcases hp : parseDirectory files with ⟨g, stats⟩
    simp only [parseTrace, hp]
    by_cases hc : g.nodes.length = 0 ∨ g.edges.length = 0
    · rw [if_pos hc]
      exact ⟨fun _ => hc.imp List.length_eq_zero.mp List.length_eq_zero.mp, fun _ => rfl⟩
    · rw [if_neg hc]
      constructor
      · intro h
        exact absurd h (by simp)
      · intro h
        exact absurd (h.imp List.length_eq_zero.mpr List.length_eq_zero.mpr) hc
  · rcases hp : parseDirectory files with ⟨g, stats⟩
    simp only [parseTrace, hp]
    by_cases hc : g.nodes.length = 0 ∨ g.edges.length = 0
    · exact Or.inl (by rw [if_pos hc])
    · exact Or.inr (by rw [if_neg hc])
  · rw [parseDirectory, List.foldl_append]
    rcases hp : parseDirectory files with ⟨g, stats⟩
    rw [parseDirectory] at hp
    rw [hp]
    simp [parseDirFile, parseJSONFile]

/-- C7 (counterexample): a state node with the single symbol `counterVal`
scanned over a file whose lines alternate `@Binding` (confidence 85/100) and
`@ObservedObject` (confidence 9/10) declarations.  The scan inserts the matches in line
order 1, 2, 3, 4 with confidences (mkRat 85 100), (mkRat 9 10), (mkRat 85 100), (mkRat 9 10), but the produced
list puts line 3 before line 1 at equal confidence 85/100 — ties do not keep
their insertion order. -/
theorem claim_c7_counterexample :
    (findMatchesForNode [cexC7File] cexC7Node).map
        (fun m => (m.confidence, m.lineNumber)) =
      [((mkRat 9 10), 2), ((mkRat 9 10), 4), ((mkRat 85 100), 3), ((mkRat 85 100), 1)] ∧
    (([cexC7File].flatMap fun f =>
        searchFileForSymbols f cexC7Node (extractSymbols cexC7Node.label)).map
        (fun m => (m.confidence, m.lineNumber)) =
      [((mkRat 85 100), 1), ((mkRat 9 10), 2), ((mkRat 85 100), 3), ((mkRat 9 10), 4)]) := by decide

/-- C7 (amended): for every node and indexed file list, the produced match
list is sorted in descending order of confidence and is a permutation of the
matches accumulated by the file scan; equal-confidence matches are not
guaranteed to keep their scan order (the exchange sort of the source is not
stable). -/
theorem claim_c7_amended (swiftFiles : List SwiftFile) (node : Node) :
    (findMatchesForNode swiftFiles node).Pairwise
      (fun a b => b.confidence ≤ a.confidence) ∧
    (findMatchesForNode swiftFiles node).Perm
      (swiftFiles.flatMap fun f =>
        searchFileForSymbols f node (extractSymbols node.label)) :=
  ⟨sortByConfidence_sorted _, sortByConfidence_perm _⟩

/-- C8 (counterexample): with one stored node and the dangling edge chain
`a → b → c`, a recursion-depth budget of `number of stored nodes + 1 = 2`
is exhausted, while depth 4 completes and returns the 3-node path — the
recursion depth is not bounded by the number of stored nodes. -/
theorem claim_c8_counterexample :
    danglingGraph.nodes.length = 1 ∧
    findLongestChainF danglingGraph (danglingGraph.nodes.length + 1) "a" [] = none ∧
    findLongestChainF danglingGraph 4 "a" [] = some ["a", "b", "c"] := by decide

/-- C8 (amended): the longest-chain search terminates on every finite graph,
cycles included: a recursion-depth budget of one more than the number of
distinct node identifiers occurring in the graph (stored node keys and both
edge endpoints) always suffices, and the returned chain never visits a node
twice — the visited set is released on backtrack but guards each single
path. -/
theorem claim_c8_amended (g : Graph) (start : String) :
    ∃ chain, findLongestChainF g (chainFuel g) start [] = some chain ∧ chain.Nodup := by
  have hcard : ((idList g).toFinset \ ([] : List String).toFinset).card < chainFuel g := by
    have hle := (idList g).toFinset_card_le
    simp only [List.toFinset_nil, Finset.sdiff_empty]
    rw [chainFuel]
    omega
  obtain ⟨chain, hchain⟩ := Option.isSome_iff_exists.mp
    (findLongestChainF_isSome g (chainFuel g) start [] hcard)
  exact ⟨chain, hchain, (findLongestChainF_chain_nodup g _ _ _ _ hchain).1⟩

/-- C10: on the graph with exactly one State node, exactly one View node and
three identical State→View edges, `Detect` emits exactly one
cascading-update issue, and it reports 3 affected views — the single view's
label repeated three times — because edges are counted without
deduplication. -/
theorem claim_c10 :
    dupEdgeGraph.edges = List.replicate 3 { src := "s", dst := "v", label := "updates" } ∧
    (dupEdgeGraph.nodes.filter fun p => p.2.type = NodeType.view).length = 1 ∧
    ((detect defaultThresholds dupEdgeGraph).filter fun is =>
        is.type = IssueType.cascadingUpdate).map
        (fun is => (is.cascadeDepth, is.affectedNodes, is.title)) =
      [(3, ["s", "ItemView", "ItemView", "ItemView"],
        "State change cascades to 3 views")] := by decide

/-- C3 (counterexample): a View node with count 20 = 2× the default
threshold 10 gets severity medium, not high — the source compares with
strict `>`, so the claim's inclusive boundaries are off by one. -/
theorem claim_c3_counterexample :
    (detectExcessiveRerenders defaultThresholds cexRerenderGraph).map Issue.severity =
      [Severity.medium] ∧
    (20 : Int) = 2 * defaultThresholds.excessiveRerenderCount ∧
    Severity.medium ≠ Severity.high := by decide

/-- C3 (amended): for every View node with count at least the (non-negative)
threshold, the detector emits exactly one issue with confidence 0.85
carrying the count, and the severity bands are medium for count ≤ 2×threshold,
high for 2×threshold < count ≤ 3×threshold, critical for count > 3×threshold
(both boundaries go to the lower band, by the source's strict `>`). -/
theorem claim_c3_amended (t : Thresholds) (g : Graph) (i : String) (n : Node)
    (hnd : (g.nodes.map Prod.fst).Nodup) (hwf : ∀ p ∈ g.nodes, p.1 = p.2.id)
    (hmem : (i, n) ∈ g.nodes) (hview : n.type = NodeType.view)
    (hcnt : t.excessiveRerenderCount ≤ n.count) (hpos : 0 ≤ t.excessiveRerenderCount) :
    ((detectExcessiveRerenders t g).countP fun is => decide (is.affectedNodes = [n.id])) = 1 ∧
    ∀ is ∈ detectExcessiveRerenders t g, is.affectedNodes = [n.id] →
      is.type = IssueType.excessiveRerender ∧
      is.confidence = mkRat 85 100 ∧
      is.updateCount = n.count ∧
      (is.severity = Severity.medium ↔ n.count ≤ 2 * t.excessiveRerenderCount) ∧
      (is.severity = Severity.high ↔
        (2 * t.excessiveRerenderCount < n.count ∧
          n.count ≤ 3 * t.excessiveRerenderCount)) ∧
      (is.severity = Severity.critical ↔ 3 * t.excessiveRerenderCount < n.count) := by
  constructor
  · rw [detectExcessiveRerenders, countP_filterMap]
    refine countP_eq_one_of_unique_key g.nodes i n _ hmem hnd hwf (hwf (i, n) hmem) ?_ ?_
    · simp [rerenderIssueFor, hview, hcnt]
    · intro p hp hqp
      by_cases hcond : p.2.type = NodeType.view ∧ t.excessiveRerenderCount ≤ p.2.count
      · simpa [rerenderIssueFor, hcond] using hqp
      · simp [rerenderIssueFor, hcond] at hqp
  · intro is his haff
    rw [detectExcessiveRerenders] at his
    obtain ⟨p, hp, hf⟩ := List.mem_filterMap.mp his
    by_cases hcond : p.2.type = NodeType.view ∧ t.excessiveRerenderCount ≤ p.2.count
    · rw [rerenderIssueFor, if_pos hcond] at hf
      have hrec := Option.some_injective _ hf
      have hidm : p.2.id = n.id := by
        rw [← hrec] at haff
        simpa using haff
      have hpi : p.1 = i := by rw [hwf p hp, hidm, ← hwf (i, n) hmem]
      have hip : (i, p.2) ∈ g.nodes := by rw [← hpi]; exact hp
      have hpn : p.2 = n := eq_of_mem_nodup_keys hnd hip hmem
      rw [hpn] at hrec
      refine ⟨by rw [← hrec], by rw [← hrec], by rw [← hrec], ?_⟩
      have hb := severityBands t.excessiveRerenderCount n.count hpos is.severity
        (by rw [← hrec])
      exact ⟨hb.1, hb.2.1, hb.2.2⟩
    · rw [rerenderIssueFor, if_neg hcond] at hf
      exact absurd hf (by simp)

/-- C3 (witness): the amended theorem on the one-view-node graph with count
20 and the default thresholds: exactly one issue for node `v1`. -/
theorem claim_c3_witness :
    ((detectExcessiveRerenders defaultThresholds cexRerenderGraph).countP
      fun is => decide (is.affectedNodes = ["v1"])) = 1 := by
  have h := claim_c3_amended defaultThresholds cexRerenderGraph "v1"
    { id := "v1", label := "ItemRow", type := NodeType.view, count := 20 }
    (by decide) (by decide) (by decide) (by decide) (by decide) (by decide)
  exact h.1

/-- C6 (counterexample): on a graph whose view nodes have ids `v1 v2 v3`
distinct from their labels `V1 V2 V3`, the emitted issue's `AffectedNodes`
is the state id followed by the view *labels*, not the view ids. -/
theorem claim_c6_counterexample :
    (detectCascadingUpdates cexCascadeGraph).map Issue.affectedNodes =
      [["s1", "V1", "V2", "V3"]] ∧
    (cexCascadeGraph.nodes.map fun p => p.2.id) = ["s1", "v1", "v2", "v3"] ∧
    ["s1", "V1", "V2", "V3"] ≠ ["s1", "v1", "v2", "v3"] := by decide

/-- C6 (amended): for every State node with at least 3 outgoing edges whose
targets are View nodes, the detector emits exactly one issue with confidence
0.75, severity high exactly when that edge count is ≥ 6 and medium
otherwise, and `AffectedNodes` is the state node's id followed by the
*labels* of the target view nodes (one entry per edge, in edge order) — not
their ids. -/
theorem claim_c6_amended (g : Graph) (i : String) (n : Node)
    (hnd : (g.nodes.map Prod.fst).Nodup) (hwf : ∀ p ∈ g.nodes, p.1 = p.2.id)
    (hmem : (i, n) ∈ g.nodes) (hstate : n.type = NodeType.state)
    (hcnt : 3 ≤ ((affectedViewLabels g n.id).length : Int)) :
    ((detectCascadingUpdates g).countP
      fun is => decide (is.affectedNodes.head? = some n.id)) = 1 ∧
    ∀ is ∈ detectCascadingUpdates g, is.affectedNodes.head? = some n.id →
      is.type = IssueType.cascadingUpdate ∧
      is.confidence = mkRat 75 100 ∧
      is.affectedNodes = n.id :: affectedViewLabels g n.id ∧
      is.cascadeDepth = ((affectedViewLabels g n.id).length : Int) ∧
      (is.severity = Severity.high ↔ 6 ≤ ((affectedViewLabels g n.id).length : Int)) ∧
      (is.severity = Severity.medium ↔ ((affectedViewLabels g n.id).length : Int) < 6) := by
  constructor
  · rw [detectCascadingUpdates, countP_filterMap]
    refine countP_eq_one_of_unique_key g.nodes i n _ hmem hnd hwf (hwf (i, n) hmem) ?_ ?_
    · simp [cascadeIssueFor, hstate, hcnt]
    · intro p hp hqp
      by_cases hcond1 : p.2.type = NodeType.state
      · by_cases hcond2 : ((affectedViewLabels g p.2.id).length : Int) ≥ 3
        · simpa [cascadeIssueFor, hcond1, hcond2] using hqp
        · simp [cascadeIssueFor, hcond1, hcond2] at hqp
      · simp [cascadeIssueFor, hcond1] at hqp
  · intro is his haff
    rw [detectCascadingUpdates] at his
    obtain ⟨p, hp, hf⟩ := List.mem_filterMap.mp his
    by_cases hcond1 : p.2.type = NodeType.state
    · by_cases hcond2 : ((affectedViewLabels g p.2.id).length : Int) ≥ 3
      · simp only [cascadeIssueFor] at hf
        rw [if_pos hcond1, if_pos hcond2] at hf
        have hrec := Option.some_injective _ hf
        have hidm : p.2.id = n.id := by
          rw [← hrec] at haff
          simpa using haff
        have hpi : p.1 = i := by rw [hwf p hp, hidm, ← hwf (i, n) hmem]
        have hip : (i, p.2) ∈ g.nodes := by rw [← hpi]; exact hp
        have hpn : p.2 = n := eq_of_mem_nodup_keys hnd hip hmem
        rw [hpn] at hrec
        have hsev_eq : is.severity =
            (if ((affectedViewLabels g n.id).length : Int) ≥ 6 then Severity.high
              else Severity.medium) := by rw [← hrec]
        refine ⟨by rw [← hrec], by rw [← hrec], by rw [← hrec], by rw [← hrec], ?_, ?_⟩ <;>
          rw [hsev_eq] <;> split_ifs with h6 <;> constructor <;> intro hx <;>
          first
            | rfl
            | omega
            | simpa using hx
      · simp [cascadeIssueFor, hcond1, hcond2] at hf
    · simp [cascadeIssueFor, hcond1] at hf

/-- C6 (witness): the amended theorem on the concrete cascade graph: exactly
one issue headed by the state node id `s1`. -/
theorem claim_c6_witness :
    ((detectCascadingUpdates cexCascadeGraph).countP
      fun is => decide (is.affectedNodes.head? = some "s1")) = 1 := by
  have h := claim_c6_amended cexCascadeGraph "s1"
    { id := "s1", label := "AppState", type := NodeType.state, count := 0 }
    (by decide) (by decide) (by decide) (by decide) (by decide)
  exact h.1
